import Mathlib

/-!
# A verification development for `LocalSymbolicMemory`
(`sdk/eidos_sdk/memory/local_symbolic_memory.py`)

The store is an in-process document store: a mapping from collection name to
an insertion-ordered list of records, where a record is a Python dict from
string field names to arbitrarily nested values.

Modelling choices (shallow embedding):
* Python values are modelled by the inductive type `Value` (None, int,
  string, list, dict).  Python dicts are insertion-ordered with unique keys;
  we model them as association lists in insertion order and model Python
  `==` as structural equality of these lists (i.e. dicts are taken in a
  canonical key order).  Floats and bools are outside the model.
* A Python exception is modelled by an error value: mutating operations
  return `Option DbErr × Store`, the store component being the state after
  the call (mutations performed before a raise persist, as in Python).
* `deepcopy` is the identity on immutable values, so it disappears from the
  pure model; aliasing-related behaviour is outside the model.
-/

/-- A Python value as stored in records and queries: `None`, an integer, a
string, a list, or a dict (modelled as an insertion-ordered association
list). -/
inductive Value where
  | vnull : Value
  | vint : Int → Value
  | vstr : String → Value
  | vlist : List Value → Value
  | vdict : List (String × Value) → Value

mutual

/-- Structural equality of values (Python `==` under the canonical-key-order
convention), written by hand because `deriving DecidableEq` does not handle
the nested occurrences of `Value` in lists. -/
def Value.beq : Value → Value → Bool
  | .vnull, .vnull => true
  | .vint a, .vint b => a == b
  | .vstr a, .vstr b => a == b
  | .vlist as, .vlist bs => Value.beqL as bs
  | .vdict as, .vdict bs => Value.beqF as bs
  | _, _ => false

def Value.beqL : List Value → List Value → Bool
  | [], [] => true
  | a :: as, b :: bs => Value.beq a b && Value.beqL as bs
  | _, _ => false

def Value.beqF : List (String × Value) → List (String × Value) → Bool
  | [], [] => true
  | (k1, v1) :: as, (k2, v2) :: bs => k1 == k2 && Value.beq v1 v2 && Value.beqF as bs
  | _, _ => false

end

mutual

theorem Value.beq_iff : ∀ a b : Value, Value.beq a b = true ↔ a = b
  | .vnull, .vnull => by simp [Value.beq]
  | .vint a, .vint b => by simp [Value.beq]
  | .vstr a, .vstr b => by simp [Value.beq]
  | .vlist as, .vlist bs => by
      simp only [Value.beq, Value.beqL_iff as bs, Value.vlist.injEq]
  | .vdict as, .vdict bs => by
      simp only [Value.beq, Value.beqF_iff as bs, Value.vdict.injEq]
  | .vnull, .vint _ | .vnull, .vstr _ | .vnull, .vlist _ | .vnull, .vdict _
  | .vint _, .vnull | .vint _, .vstr _ | .vint _, .vlist _ | .vint _, .vdict _
  | .vstr _, .vnull | .vstr _, .vint _ | .vstr _, .vlist _ | .vstr _, .vdict _
  | .vlist _, .vnull | .vlist _, .vint _ | .vlist _, .vstr _ | .vlist _, .vdict _
  | .vdict _, .vnull | .vdict _, .vint _ | .vdict _, .vstr _ | .vdict _, .vlist _ => by
      simp [Value.beq]

theorem Value.beqL_iff : ∀ as bs : List Value, Value.beqL as bs = true ↔ as = bs
  | [], [] => by simp [Value.beqL]
  | a :: as, b :: bs => by
      simp [Value.beqL, Value.beq_iff a b, Value.beqL_iff as bs]
  | [], _ :: _ => by simp [Value.beqL]
  | _ :: _, [] => by simp [Value.beqL]

theorem Value.beqF_iff :
    ∀ as bs : List (String × Value), Value.beqF as bs = true ↔ as = bs
  | [], [] => by simp [Value.beqF]
  | (k1, v1) :: as, (k2, v2) :: bs => by
      simp [Value.beqF, Value.beq_iff v1 v2, Value.beqF_iff as bs, and_assoc]
  | [], _ :: _ => by simp [Value.beqF]
  | _ :: _, [] => by simp [Value.beqF]

end

instance : DecidableEq Value :=
  fun a b => decidable_of_iff (Value.beq a b = true) (Value.beq_iff a b)

/-- A record / query / patch: a Python dict from field names to values. -/
abbrev Record := List (String × Value)

/-- A collection: an insertion-ordered list of records. -/
abbrev Collection := List Record

/-- The store `LocalSymbolicMemory.db`: a dict from collection name to
collection. -/
abbrev Store := List (String × Collection)

/-- Errors surfaced by the operations: `DuplicateKeyError` (carrying the
offending `_id` value, `vnull` when the record has no `_id`) and Python's
`TypeError` (raised by `_matches_query` on ill-typed input). -/
inductive DbErr where
  | duplicateKey : Value → DbErr
  | typeError : DbErr
deriving DecidableEq

/-- First value bound to `key` in an association list (`dict[key]` /
`dict.get(key)` without default). -/
def lookupField {α : Type _} : List (String × α) → String → Option α
  | [], _ => none
  | (k, v) :: rest, key => if k = key then some v else lookupField rest key

/-- Python `doc.get(key)`: the value at `key`, defaulting to `None` when the
key is absent (so an absent `_id` and an explicit `_id: None` coincide, as
they do under Python `==`). -/
def pyGet (doc : Record) (key : String) : Value :=
  (lookupField doc key).getD .vnull

/-- Whether a list of characters starts with another. -/
def charsStartWith : List Char → List Char → Bool
  | _, [] => true
  | [], _ :: _ => false
  | a :: as, b :: bs => a == b && charsStartWith as bs

/-- Whether `need` occurs as a contiguous run inside `hay` (Python substring
containment `need in hay` for strings). -/
def charsContain (hay need : List Char) : Bool :=
  charsStartWith hay need ||
    match hay with
    | [] => false
    | _ :: t => charsContain t need

/-- Python `key in doc` for a string `key`: key membership for a dict,
element membership for a list, substring test for a string; `TypeError`
(modelled as `none`) for `None` and numbers, which are not iterable. -/
def pyIn (key : String) : Value → Option Bool
  | .vdict fields => some (fields.any (fun kv => kv.1 == key))
  | .vlist xs => some (xs.any (fun v => v == .vstr key))
  | .vstr s => some (charsContain s.toList key.toList)
  | _ => none

/-- Python `doc[key]` for a string `key`: dict lookup; `TypeError` (modelled
as `none`) for every non-dict (string and list subscripts must be integers).
In `_matches_query` this is only reached after `key in doc` succeeded, so
the dict branch never returns `none` there. -/
def pyIndex : Value → String → Option Value
  | .vdict fields, key => lookupField fields key
  | _, _ => none

mutual

/-- The method `LocalSymbolicMemory._matches_query(doc, query)`, the recursive
predicate used by `find`, `find_one`, `upsert_one` and `update_many`:
for each `(key, value)` pair of the query in order, fail (`some false`)
when `key not in doc`; when `value` is a dict (`isinstance(value, dict)`),
recurse into `doc[key]`; otherwise require `doc[key] == value`.  `none`
models a raised `TypeError`. -/
def matchesQuery (doc : Value) : List (String × Value) → Option Bool
  | [] => some true
  | (key, value) :: rest =>
    match pyIn key doc with
    | none => none
    | some false => some false
    | some true =>
      match value with
      | .vdict _ =>
        match pyIndex doc key with
        | none => none
        | some dv =>
          match matchesQueryV dv value with
          | none => none
          | some false => some false
          | some true => matchesQuery doc rest
      | _ =>
        match pyIndex doc key with
        | none => none
        | some dv => if dv = value then matchesQuery doc rest else some false

/-- The recursive call `self._matches_query(doc[key], value)`, entered only
when `value` is a dict: unpack the dict and continue.  (The non-dict branch
is unreachable behind the `isinstance` guard; it is mapped to an error.) -/
def matchesQueryV (doc : Value) : Value → Option Bool
  | .vdict q => matchesQuery doc q
  | _ => none

end

/-- The flat predicate used by `count` and `delete`:
`all(item in doc.items() for item in query.items())` — every `(key, value)`
pair of the query is literally one of the record's pairs. -/
def flatMatches (doc query : Record) : Bool :=
  query.all (fun item => doc.contains item)

/-- Lookup `symbol_collection in self.db` / `self.db[symbol_collection]`. -/
def getColl (db : Store) (c : String) : Option Collection :=
  lookupField db c

/-- Assignment `self.db[c] = coll`: rebind an existing key in place, or add the new key
at the end (Python dict assignment). -/
def setColl : Store → String → Collection → Store
  | [], c, coll => [(c, coll)]
  | (k, v) :: rest, c, coll =>
      if k = c then (k, coll) :: rest else (k, v) :: setColl rest c coll

/-- Lazy creation `if symbol_collection not in self.db: self.db[symbol_collection] = []`. -/
def ensureColl (db : Store) (c : String) : Store :=
  match getColl db c with
  | some _ => db
  | none => setColl db c []

/-- The stored contents of collection `c` (empty when absent). -/
def contents (db : Store) (c : String) : Collection :=
  (getColl db c).getD []

/-- The method `LocalSymbolicMemory.count`:
`sum(1 for doc in db[c] if all(item in doc.items() for item in query.items()))`,
`0` when the collection is absent. -/
def count (db : Store) (c : String) (query : Record) : Nat :=
  match getColl db c with
  | none => 0
  | some coll => coll.countP (fun doc => flatMatches doc query)

/-- The method `LocalSymbolicMemory._apply_projection(doc, projection)` for a dict
projection: keep, in record order, the fields named in the projection with
inclusion flag `1`. -/
def applyProjection (doc : Record) (projection : List (String × Int)) : Record :=
  doc.filter (fun kv =>
    match lookupField projection kv.1 with
    | some flag => flag == 1
    | none => false)

/-- The body of the `find` generator, run to completion: matching records in
collection order, each projected when a projection is given; an error cuts
the iteration short. -/
def findLoop (query : Record) (projection : Option (List (String × Int))) :
    Collection → Option DbErr × List Record
  | [] => (none, [])
  | doc :: rest =>
    match matchesQuery (.vdict doc) query with
    | none => (some .typeError, [])
    | some true =>
      let r := findLoop query projection rest
      (r.1, (match projection with
             | some p => applyProjection doc p
             | none => doc) :: r.2)
    | some false => findLoop query projection rest

/-- The method `LocalSymbolicMemory.find` (no sort, no skip — the source ignores both):
the list of yielded records, with a possible `TypeError` surfacing during
iteration. -/
def find (db : Store) (c : String) (query : Record)
    (projection : Option (List (String × Int))) : Option DbErr × List Record :=
  match getColl db c with
  | none => (none, [])
  | some coll => findLoop query projection coll

/-- The scan inside `find_one`: first record matching the recursive
predicate. -/
def findFirst (query : Record) : Collection → Option DbErr × Option Record
  | [] => (none, none)
  | doc :: rest =>
    match matchesQuery (.vdict doc) query with
    | none => (some .typeError, none)
    | some true => (none, some doc)
    | some false => findFirst query rest

/-- The method `LocalSymbolicMemory.find_one`: first matching record (a deep copy, which
is the identity here), `none` when nothing matches or the collection is
absent. -/
def find_one (db : Store) (c : String) (query : Record) :
    Option DbErr × Option Record :=
  match getColl db c with
  | none => (none, none)
  | some coll => findFirst query coll

/-- The check `any(doc.get("_id") == document.get("_id") for doc in self.db[c])`. -/
def hasDupId (coll : Collection) (document : Record) : Bool :=
  coll.any (fun doc => pyGet doc "_id" == pyGet document "_id")

/-- The method `LocalSymbolicMemory.insert_one`.  The pair is (raised error, store
after the call); note that the lazy creation of the collection persists even
when `DuplicateKeyError` is raised. -/
def insert_one (db : Store) (c : String) (document : Record) :
    Option DbErr × Store :=
  let db1 := ensureColl db c
  let coll := contents db1 c
  if hasDupId coll document then
    (some (.duplicateKey (pyGet document "_id")), db1)
  else
    (none, setColl db1 c (coll ++ [document]))

/-- The method `LocalSymbolicMemory.insert`: every batch record is checked against the
current stored contents before anything is appended; the first offending
record raises. -/
def insert (db : Store) (c : String) (documents : List Record) :
    Option DbErr × Store :=
  let db1 := ensureColl db c
  let coll := contents db1 c
  match documents.find? (fun document => hasDupId coll document) with
  | some document => (some (.duplicateKey (pyGet document "_id")), db1)
  | none => (none, setColl db1 c (coll ++ documents))

/-- Result of the replacement scan in `upsert_one`. -/
inductive ScanResult where
  | err : ScanResult
  | noMatch : ScanResult
  | replaced : Collection → ScanResult

/-- The `for i, doc in enumerate(self.db[c])` scan of `upsert_one`: replace
the first record matching the recursive predicate in place. -/
def upsertScan (document query : Record) : Collection → ScanResult
  | [] => .noMatch
  | doc :: rest =>
    match matchesQuery (.vdict doc) query with
    | none => .err
    | some true => .replaced (document :: rest)
    | some false =>
      match upsertScan document query rest with
      | .err => .err
      | .noMatch => .noMatch
      | .replaced r => .replaced (doc :: r)

/-- The method `LocalSymbolicMemory.upsert_one`: replace the first record matching the
query in place; otherwise fall back to insert semantics (duplicate-`_id`
check, then append). -/
def upsert_one (db : Store) (c : String) (document query : Record) :
    Option DbErr × Store :=
  let db1 := ensureColl db c
  let coll := contents db1 c
  match upsertScan document query coll with
  | .err => (some .typeError, db1)
  | .replaced coll2 => (none, setColl db1 c coll2)
  | .noMatch =>
    if hasDupId coll document then
      (some (.duplicateKey (pyGet document "_id")), db1)
    else
      (none, setColl db1 c (coll ++ [document]))

/-- Python `doc.update(patch)`: existing keys keep their position and take
the patch's value; keys new to `doc` are appended in patch order. -/
def dictUpdate (doc patch : Record) : Record :=
  doc.map (fun kv =>
    match lookupField patch kv.1 with
    | some v => (kv.1, v)
    | none => kv)
  ++ patch.filter (fun kv => !(doc.any (fun dv => dv.1 == kv.1)))

/-- The loop of `update_many`; on a `TypeError` the records already visited
keep their updates (as in Python, where the exception escapes mid-loop). -/
def updateLoop (query patch : Record) : Collection → Option DbErr × Collection
  | [] => (none, [])
  | doc :: rest =>
    match matchesQuery (.vdict doc) query with
    | none => (some .typeError, doc :: rest)
    | some true =>
      let r := updateLoop query patch rest
      (r.1, dictUpdate doc patch :: r.2)
    | some false =>
      let r := updateLoop query patch rest
      (r.1, doc :: r.2)

/-- The method `LocalSymbolicMemory.update_many`: merge the patch into every record
matching the recursive predicate; no-op when the collection is absent. -/
def update_many (db : Store) (c : String) (query patch : Record) :
    Option DbErr × Store :=
  match getColl db c with
  | none => (none, db)
  | some coll =>
    let r := updateLoop query patch coll
    (r.1, setColl db c r.2)

/-- The method `LocalSymbolicMemory.delete`: keep the records that do NOT satisfy the
flat predicate; no-op when the collection is absent. -/
def delete (db : Store) (c : String) (query : Record) : Store :=
  match getColl db c with
  | none => db
  | some coll => setColl db c (coll.filter (fun doc => !(flatMatches doc query)))

mutual

/-- The typing precondition under which `_matches_query` cannot raise:
whenever a query key carries a dict value and the key is present in the
record, the record's value there is itself a dict, recursively. -/
def compat (doc : Record) : List (String × Value) → Bool
  | [] => true
  | (key, value) :: rest =>
    (match value with
     | .vdict _ =>
       (match lookupField doc key with
        | some dv => compatV dv value
        | none => true)
     | _ => true) && compat doc rest

/-- The predicate `compat` at a record value hit by a dict-valued query key: the value
must itself be a dict whose fields are again compatible. -/
def compatV (dv : Value) : Value → Bool
  | .vdict q =>
    (match dv with
     | .vdict sub => compat sub q
     | _ => false)
  | _ => true

end

/-! ## Concrete scenarios -/

/-- The record of the spec's concrete scenario:
`{_id: "u1", name: "Alice", address: {city: "NYC"}}`. -/
def aliceNYC : Record :=
  [("_id", .vstr "u1"), ("name", .vstr "Alice"),
   ("address", .vdict [("city", .vstr "NYC")])]

/-- The nested query `{address: {city: "NYC"}}`. -/
def addrQuery : Record := [("address", .vdict [("city", .vstr "NYC")])]

/-- The store after `insert_one("users", aliceNYC)` on a fresh store. -/
def usersDb : Store := (insert_one [] "users" aliceNYC).2

/-- A stored record whose `_id` is the dict `{a: 1, b: 2}`. -/
def storedDictId : Record := [("_id", .vdict [("a", .vint 1), ("b", .vint 2)])]

/-- An incoming record whose `_id` is the dict `{a: 1}` — absent from the
collection, yet its identity query partially matches `storedDictId`. -/
def rDictId : Record := [("_id", .vdict [("a", .vint 1)]), ("name", .vstr "X")]

/-- A store holding only `storedDictId` in collection `"users"`. -/
def dbDictId : Store := [("users", [storedDictId])]

/-- A store holding one record with `_id = 1` in collection `"users"`. -/
def dbOne : Store := [("users", [[("_id", Value.vint 1)]])]

example : matchesQuery (.vdict [("a", .vint 1)]) [("a", .vint 1)] = some true := by decide

example : matchesQuery (.vdict [("a", .vint 5)]) [("a", .vdict [("x", .vint 1)])] = none := by
  decide

example : flatMatches [("a", .vint 1), ("b", .vint 2)] [("b", .vint 2)] = true := by decide

/-! ## Association-list and store lemmas -/

theorem lookupField_isSome {α : Type _} (l : List (String × α)) (key : String) :
    (lookupField l key).isSome = l.any (fun kv => kv.1 == key) := by
  induction l with
  | nil => simp [lookupField]
  | cons kv rest ih =>
      obtain ⟨k, v⟩ := kv
      by_cases h : k = key <;> simp [lookupField, h, ih]

theorem lookupField_append {α : Type _} (l1 l2 : List (String × α)) (key : String) :
    lookupField (l1 ++ l2) key =
      match lookupField l1 key with
      | some v => some v
      | none => lookupField l2 key := by
  induction l1 with
  | nil => simp [lookupField]
  | cons kv rest ih =>
      obtain ⟨k, v⟩ := kv
      by_cases h : k = key <;> simp [lookupField, h, ih]

theorem getColl_setColl_self (db : Store) (c : String) (coll : Collection) :
    getColl (setColl db c coll) c = some coll := by
  induction db with
  | nil => simp [setColl, getColl, lookupField]
  | cons kv rest ih =>
      obtain ⟨k, v⟩ := kv
      by_cases h : k = c
      · simp [setColl, getColl, lookupField, h]
      · simp only [setColl, getColl, lookupField, if_neg h]
        simpa [getColl] using ih

theorem contents_setColl_self (db : Store) (c : String) (coll : Collection) :
    contents (setColl db c coll) c = coll := by
  simp [contents, getColl_setColl_self]

theorem ensureColl_of_isSome {db : Store} {c : String} {l : Collection}
    (h : getColl db c = some l) : ensureColl db c = db := by
  simp [ensureColl, h]

theorem getColl_ensureColl (db : Store) (c : String) :
    getColl (ensureColl db c) c = some (contents db c) := by
  unfold ensureColl contents
  cases h : getColl db c with
  | none => simp [getColl_setColl_self]
  | some l => simp [h]

theorem contents_ensureColl (db : Store) (c : String) :
    contents (ensureColl db c) c = contents db c := by
  simp [contents, getColl_ensureColl]

theorem hasDupId_iff (coll : Collection) (d : Record) :
    hasDupId coll d = true ↔ ∃ doc ∈ coll, pyGet doc "_id" = pyGet d "_id" := by
  simp [hasDupId, List.any_eq_true]

theorem flatMatches_iff (doc q : Record) :
    flatMatches doc q = true ↔ ∀ item ∈ q, item ∈ doc := by
  simp [flatMatches, List.all_eq_true, List.contains, List.elem_eq_mem]

/-! ## Lemmas about the scans of `find_one`, `upsert_one` and `update_many` -/

theorem findFirst_skip (query : Record) (l1 l2 : Collection)
    (h : ∀ x ∈ l1, matchesQuery (.vdict x) query = some false) :
    findFirst query (l1 ++ l2) = findFirst query l2 := by
  induction l1 with
  | nil => simp
  | cons doc rest ih =>
      have hd := h doc (by simp)
      simp only [List.cons_append, findFirst, hd]
      exact ih (fun x hx => h x (by simp [hx]))

theorem findFirst_match (query : Record) (doc : Record) (l2 : Collection)
    (h : matchesQuery (.vdict doc) query = some true) :
    findFirst query (doc :: l2) = (none, some doc) := by
  simp [findFirst, h]

theorem upsertScan_noMatch (document query : Record) (coll : Collection)
    (h : ∀ x ∈ coll, matchesQuery (.vdict x) query = some false) :
    upsertScan document query coll = .noMatch := by
  induction coll with
  | nil => rfl
  | cons doc rest ih =>
      have hd := h doc (by simp)
      simp only [upsertScan, hd]
      rw [ih (fun x hx => h x (by simp [hx]))]

theorem upsertScan_replaced (document query : Record) (l1 : Collection)
    (d : Record) (l2 : Collection)
    (h1 : ∀ x ∈ l1, matchesQuery (.vdict x) query = some false)
    (hd : matchesQuery (.vdict d) query = some true) :
    upsertScan document query (l1 ++ d :: l2) = .replaced (l1 ++ document :: l2) := by
  induction l1 with
  | nil => simp [upsertScan, hd]
  | cons x rest ih =>
      have hx := h1 x (by simp)
      simp only [List.cons_append, upsertScan, hx, List.append_eq]
      rw [ih (fun y hy => h1 y (by simp [hy]))]

theorem updateLoop_ok (query patch : Record) (coll : Collection)
    (h : ∀ doc ∈ coll, (matchesQuery (.vdict doc) query).isSome) :
    updateLoop query patch coll =
      (none, coll.map (fun doc =>
        if matchesQuery (.vdict doc) query = some true then dictUpdate doc patch
        else doc)) := by
  induction coll with
  | nil => rfl
  | cons doc rest ih =>
      have hd := h doc (by simp)
      have ihr := ih (fun x hx => h x (by simp [hx]))
      cases hm : matchesQuery (.vdict doc) query with
      | none => simp [hm] at hd
      | some b =>
          cases b with
          | true => simp [updateLoop, hm, ihr]
          | false => simp [updateLoop, hm, ihr]

/-! ## Lemmas about `dictUpdate` (Python `dict.update`) -/

theorem lookupField_map_patch (doc patch : Record) (key : String) :
    lookupField (doc.map (fun kv =>
      match lookupField patch kv.1 with
      | some v => (kv.1, v)
      | none => kv)) key =
    (lookupField doc key).map (fun dv =>
      match lookupField patch key with
      | some v => v
      | none => dv) := by
  induction doc with
  | nil => simp [lookupField]
  | cons kv rest ih =>
      obtain ⟨k, v⟩ := kv
      by_cases h : k = key
      · subst h
        cases hp : lookupField patch k <;> simp [lookupField, hp]
      · cases hp : lookupField patch k
        · simp only [List.map_cons, hp, lookupField, if_neg h]
          exact ih
        · simp only [List.map_cons, hp, lookupField, if_neg h]
          exact ih

theorem lookupField_filter_fresh (doc patch : Record) (key : String) :
    lookupField (patch.filter (fun kv => !(doc.any (fun dv => dv.1 == kv.1)))) key =
      if doc.any (fun dv => dv.1 == key) then none else lookupField patch key := by
  induction patch with
  | nil => simp [lookupField]
  | cons kv rest ih =>
      obtain ⟨k, v⟩ := kv
      by_cases h : k = key
      · subst h
        by_cases hk : doc.any (fun dv => dv.1 == k) = true
        · simp [List.filter_cons, hk, ih]
        · have hk2 : doc.any (fun dv => dv.1 == k) = false := Bool.eq_false_iff.mpr hk
          simp [List.filter_cons, hk2, lookupField]
      · by_cases hk : doc.any (fun dv => dv.1 == k) = true
        · simp only [List.filter_cons, hk]
          simpa [lookupField, h] using ih
        · simp only [List.filter_cons, hk, Bool.not_true]
          simp only [Bool.not_eq_true] at hk
          simp only [hk, Bool.not_false, if_true, lookupField, if_neg h]
          exact ih

/-! ## Totality and partiality of the recursive predicate -/

mutual

theorem matchesQuery_total : ∀ (doc : Record) (query : List (String × Value)),
    compat doc query = true → ∃ b, matchesQuery (.vdict doc) query = some b
  | _, [], _ => ⟨true, rfl⟩
  | doc, (key, value) :: rest, h => by
      simp only [compat, Bool.and_eq_true] at h
      obtain ⟨hleft, hrest⟩ := h
      obtain ⟨b2, hb2⟩ := matchesQuery_total doc rest hrest
      cases hany : doc.any (fun kv => kv.1 == key) with
      | false => exact ⟨false, by simp [matchesQuery, pyIn, hany]⟩
      | true =>
          have hsome : (lookupField doc key).isSome := by
            rw [lookupField_isSome, hany]
          obtain ⟨dv, hdv⟩ := Option.isSome_iff_exists.mp hsome
          cases value with
          | vdict q =>
              rw [hdv] at hleft
              obtain ⟨b1, hb1⟩ := matchesQueryV_total dv q hleft
              cases b1 with
              | false =>
                  exact ⟨false, by
                    simp [matchesQuery, pyIn, pyIndex, hany, hdv, hb1]⟩
              | true =>
                  exact ⟨b2, by
                    simp [matchesQuery, pyIn, pyIndex, hany, hdv, hb1, hb2]⟩
          | vnull =>
              by_cases he : dv = Value.vnull
              · exact ⟨b2, by
                  simp [matchesQuery, pyIn, pyIndex, hany, hdv, he, hb2]⟩
              · exact ⟨false, by
                  simp [matchesQuery, pyIn, pyIndex, hany, hdv, he]⟩
          | vint m =>
              by_cases he : dv = Value.vint m
              · exact ⟨b2, by
                  simp [matchesQuery, pyIn, pyIndex, hany, hdv, he, hb2]⟩
              · exact ⟨false, by
                  simp [matchesQuery, pyIn, pyIndex, hany, hdv, he]⟩
          | vstr s =>
              by_cases he : dv = Value.vstr s
              · exact ⟨b2, by
                  simp [matchesQuery, pyIn, pyIndex, hany, hdv, he, hb2]⟩
              · exact ⟨false, by
                  simp [matchesQuery, pyIn, pyIndex, hany, hdv, he]⟩
          | vlist xs =>
              by_cases he : dv = Value.vlist xs
              · exact ⟨b2, by
                  simp [matchesQuery, pyIn, pyIndex, hany, hdv, he, hb2]⟩
              · exact ⟨false, by
                  simp [matchesQuery, pyIn, pyIndex, hany, hdv, he]⟩

theorem matchesQueryV_total : ∀ (dv : Value) (q : List (String × Value)),
    compatV dv (.vdict q) = true → ∃ b, matchesQueryV dv (.vdict q) = some b
  | .vdict sub, q, h => by
      simp only [compatV] at h
      obtain ⟨b, hb⟩ := matchesQuery_total sub q h
      exact ⟨b, by simpa [matchesQueryV] using hb⟩
  | .vnull, _, h => by simp [compatV] at h
  | .vint _, _, h => by simp [compatV] at h
  | .vstr _, _, h => by simp [compatV] at h
  | .vlist _, _, h => by simp [compatV] at h

end

/-- A dict-valued query key over a record whose value there is an integer
raises `TypeError` as soon as the inner query is non-empty: the inner call
evaluates `key in doc` with a non-iterable `doc`. -/
theorem matchesQuery_err_single (doc : Record) (k : String) (n : Int)
    (q : List (String × Value)) (hq : q ≠ [])
    (hdv : lookupField doc k = some (.vint n)) :
    matchesQuery (.vdict doc) [(k, .vdict q)] = none := by
  have hany : doc.any (fun kv => kv.1 == k) = true := by
    rw [← lookupField_isSome, hdv]
    rfl
  obtain ⟨kv, t, rfl⟩ := List.exists_cons_of_ne_nil hq
  obtain ⟨k2, v2⟩ := kv
  simp [matchesQuery, pyIn, pyIndex, hany, hdv, matchesQueryV]

theorem lookupField_dictUpdate (doc patch : Record) (key : String) :
    lookupField (dictUpdate doc patch) key =
      match lookupField patch key with
      | some v => some v
      | none => lookupField doc key := by
  unfold dictUpdate
  rw [lookupField_append, lookupField_map_patch, lookupField_filter_fresh]
  cases hd : lookupField doc key with
  | some dv =>
      have : doc.any (fun dv => dv.1 == key) = true := by
        rw [← lookupField_isSome doc key, hd]
        rfl
      cases hp : lookupField patch key <;> simp [hp, this]
  | none =>
      have : doc.any (fun dv => dv.1 == key) = false := by
        have := lookupField_isSome doc key
        rw [hd] at this
        exact this.symm
      cases hp : lookupField patch key <;> simp [hp, this]

/-! ## Single-key identity queries -/

theorem matchesQuery_single_false (doc : Record) (k : String) (idv : Value)
    (hnd : ∀ fs, idv ≠ .vdict fs) (hne : pyGet doc k ≠ idv) :
    matchesQuery (.vdict doc) [(k, idv)] = some false := by
  cases hany : doc.any (fun kv => kv.1 == k) with
  | false => simp [matchesQuery, pyIn, hany]
  | true =>
      have hsome : (lookupField doc k).isSome := by
        rw [lookupField_isSome, hany]
      obtain ⟨dv, hdv⟩ := Option.isSome_iff_exists.mp hsome
      have hgd : pyGet doc k = dv := by simp [pyGet, hdv]
      rw [hgd] at hne
      cases idv with
      | vdict fs => exact absurd rfl (hnd fs)
      | vnull => simp [matchesQuery, pyIn, pyIndex, hany, hdv, hne]
      | vint m => simp [matchesQuery, pyIn, pyIndex, hany, hdv, hne]
      | vstr s => simp [matchesQuery, pyIn, pyIndex, hany, hdv, hne]
      | vlist xs => simp [matchesQuery, pyIn, pyIndex, hany, hdv, hne]

theorem matchesQuery_single_true (doc : Record) (k : String) (idv : Value)
    (hnd : ∀ fs, idv ≠ .vdict fs) (hdv : lookupField doc k = some idv) :
    matchesQuery (.vdict doc) [(k, idv)] = some true := by
  have hany : doc.any (fun kv => kv.1 == k) = true := by
    rw [← lookupField_isSome, hdv]
    rfl
  cases idv with
  | vdict fs => exact absurd rfl (hnd fs)
  | vnull => simp [matchesQuery, pyIn, pyIndex, hany, hdv]
  | vint m => simp [matchesQuery, pyIn, pyIndex, hany, hdv]
  | vstr s => simp [matchesQuery, pyIn, pyIndex, hany, hdv]
  | vlist xs => simp [matchesQuery, pyIn, pyIndex, hany, hdv]

/-! ## Behaviour of `insert` -/

theorem insert_no_collision (db : Store) (c : String) (batch : List Record)
    (h : ∀ d ∈ batch, ∀ doc ∈ contents db c, pyGet doc "_id" ≠ pyGet d "_id") :
    insert db c batch =
      (none, setColl (ensureColl db c) c (contents db c ++ batch)) := by
  have hfind : batch.find?
      (fun document => hasDupId (contents db c) document) = none := by
    rw [List.find?_eq_none]
    intro d hd hdup
    obtain ⟨doc, hdoc, heq⟩ := (hasDupId_iff _ _).mp hdup
    exact h d hd doc hdoc heq
  rw [insert.eq_def]
  simp [contents_ensureColl, hfind]

theorem insert_collision (db : Store) (c : String) (batch : List Record)
    (d0 : Record)
    (hfind : batch.find? (fun document => hasDupId (contents db c) document)
      = some d0) :
    insert db c batch = (some (.duplicateKey (pyGet d0 "_id")), ensureColl db c) := by
  rw [insert.eq_def]
  simp [contents_ensureColl, hfind]

/-! ## Claim theorems -/

/-- C1 counterexample.  In the spec's concrete scenario the stored nested
mapping `{city: "NYC"}` is structurally identical to the query's, so the
flat predicate of `delete` does match: the delete removes the record and
the collection count drops from 1 to 0, contradicting the claim that the
count is unchanged (its `find_one` half does hold). -/
theorem delete_identical_nested_removes :
    find_one usersDb "users" addrQuery = (none, some aliceNYC) ∧
    ¬ (count (delete usersDb "users" addrQuery) "users" [] =
        count usersDb "users" []) := by
  constructor
  · decide
  · decide

/-- C1 (amended): after `insert_one("users", {_id: "u1", name: "Alice",
address: {city: "NYC"}})`, `find_one` with query `{address: {city: "NYC"}}`
returns the record (recursive partial match), and `delete` with the same
query **does** remove it — the query's nested mapping equals the stored one
structurally, so the flat predicate matches — leaving the collection count
at 0. -/
theorem nested_query_scenario :
    (insert_one [] "users" aliceNYC).1 = none ∧
    find_one usersDb "users" addrQuery = (none, some aliceNYC) ∧
    delete usersDb "users" addrQuery = [("users", [])] ∧
    count usersDb "users" [] = 1 ∧
    count (delete usersDb "users" addrQuery) "users" [] = 0 := by
  refine ⟨by decide, by decide, by decide, by decide, by decide⟩

/-- C2: batch insert is all-or-nothing.  If some batch record's `_id`
collides with a stored record of `c`, `insert` fails with `DuplicateKey`
naming an offending record's id and the stored contents of `c` are exactly
as before; if no batch record collides, `insert` succeeds and appends the
whole batch in order. -/
theorem insert_batch_all_or_nothing (db : Store) (c : String)
    (batch : List Record) :
    ((∃ d ∈ batch, ∃ doc ∈ contents db c, pyGet doc "_id" = pyGet d "_id") →
      ∃ d ∈ batch,
        (∃ doc ∈ contents db c, pyGet doc "_id" = pyGet d "_id") ∧
        (insert db c batch).1 = some (.duplicateKey (pyGet d "_id")) ∧
        contents (insert db c batch).2 c = contents db c) ∧
    ((∀ d ∈ batch, ∀ doc ∈ contents db c, pyGet doc "_id" ≠ pyGet d "_id") →
      (insert db c batch).1 = none ∧
      contents (insert db c batch).2 c = contents db c ++ batch) := by
  constructor
  · intro hex
    cases hfind : batch.find?
        (fun document => hasDupId (contents db c) document) with
    | none =>
        exfalso
        obtain ⟨d, hd, doc, hdoc, heq⟩ := hex
        have := List.find?_eq_none.mp hfind d hd
        exact this ((hasDupId_iff _ _).mpr ⟨doc, hdoc, heq⟩)
    | some d0 =>
        have hmem := List.mem_of_find?_eq_some hfind
        have hp := List.find?_some hfind
        obtain ⟨doc, hdoc, heq⟩ := (hasDupId_iff _ _).mp hp
        refine ⟨d0, hmem, ⟨doc, hdoc, heq⟩, ?_, ?_⟩
        · rw [insert_collision db c batch d0 hfind]
        · rw [insert_collision db c batch d0 hfind]
          exact contents_ensureColl db c
  · intro hall
    rw [insert_no_collision db c batch hall]
    exact ⟨rfl, contents_setColl_self _ _ _⟩

/-- C2 witness: a concrete instance of each half of
`insert_batch_all_or_nothing`. -/
theorem insert_batch_all_or_nothing_inst :
    (∃ d ∈ [[("_id", Value.vint 2)], [("_id", Value.vint 1)]],
      (∃ doc ∈ contents dbOne "users", pyGet doc "_id" = pyGet d "_id") ∧
      (insert dbOne "users" [[("_id", Value.vint 2)], [("_id", Value.vint 1)]]).1 =
        some (.duplicateKey (pyGet d "_id")) ∧
      contents (insert dbOne "users"
        [[("_id", Value.vint 2)], [("_id", Value.vint 1)]]).2 "users" =
        contents dbOne "users") ∧
    ((insert dbOne "users" [[("_id", Value.vint 2)]]).1 = none ∧
      contents (insert dbOne "users" [[("_id", Value.vint 2)]]).2 "users" =
        contents dbOne "users" ++ [[("_id", Value.vint 2)]]) :=
  ⟨(insert_batch_all_or_nothing dbOne "users"
      [[("_id", Value.vint 2)], [("_id", Value.vint 1)]]).1 (by decide),
   (insert_batch_all_or_nothing dbOne "users" [[("_id", Value.vint 2)]]).2
      (by decide)⟩

/-- C3 counterexample.  `rDictId`'s `_id` (`{a: 1}`) does not occur in the
collection, yet after inserting it, `find_one` by `{_id: {a: 1}}` returns
the pre-existing record `storedDictId` (whose `_id` `{a: 1, b: 2}` is
partially matched by the recursive predicate), which differs from `rDictId`
— so the round-trip claim fails for dict-valued ids. -/
theorem roundtrip_dict_id_cex :
    pyGet storedDictId "_id" ≠ pyGet rDictId "_id" ∧
    (insert_one dbDictId "users" rDictId).1 = none ∧
    find_one (insert_one dbDictId "users" rDictId).2 "users"
      [("_id", pyGet rDictId "_id")] = (none, some storedDictId) ∧
    storedDictId ≠ rDictId := by
  refine ⟨by decide, by decide, by decide, by decide⟩

/-- C3 (amended): for every collection and record `r` carrying an `_id`
whose value is **not a dict** and does not occur (as a `get("_id")` value)
among the stored records, `insert_one` succeeds and a subsequent `find_one`
by `{_id: r._id}` returns `r` itself. -/
theorem insert_find_roundtrip (db : Store) (c : String) (r : Record)
    (idv : Value)
    (hid : lookupField r "_id" = some idv)
    (hnd : ∀ fs, idv ≠ .vdict fs)
    (hfresh : ∀ doc ∈ contents db c, pyGet doc "_id" ≠ idv) :
    (insert_one db c r).1 = none ∧
    find_one (insert_one db c r).2 c [("_id", idv)] = (none, some r) := by
  have hgr : pyGet r "_id" = idv := by simp [pyGet, hid]
  have hdup : hasDupId (contents db c) r = false := by
    rw [Bool.eq_false_iff]
    intro hd
    obtain ⟨doc, hdoc, heq⟩ := (hasDupId_iff _ _).mp hd
    exact hfresh doc hdoc (hgr ▸ heq)
  have hresult : insert_one db c r =
      (none, setColl (ensureColl db c) c (contents db c ++ [r])) := by
    unfold insert_one
    simp [contents_ensureColl, hdup]
  have hget := getColl_setColl_self (ensureColl db c) c (contents db c ++ [r])
  have hskip : ∀ x ∈ contents db c,
      matchesQuery (.vdict x) [("_id", idv)] = some false :=
    fun x hx => matchesQuery_single_false x "_id" idv hnd (hfresh x hx)
  have hff : findFirst [("_id", idv)] (contents db c ++ [r]) = (none, some r) := by
    rw [findFirst_skip _ _ _ hskip]
    exact findFirst_match _ _ _ (matchesQuery_single_true r "_id" idv hnd hid)
  refine ⟨by rw [hresult], ?_⟩
  rw [hresult]
  simp [find_one, hget, hff]

/-- C3 witness: a concrete instance of `insert_find_roundtrip` with an
integer id. -/
theorem insert_find_roundtrip_inst :
    (insert_one dbOne "users" [("_id", Value.vint 2), ("name", Value.vstr "B")]).1
      = none ∧
    find_one (insert_one dbOne "users"
        [("_id", Value.vint 2), ("name", Value.vstr "B")]).2 "users"
        [("_id", Value.vint 2)] =
      (none, some [("_id", Value.vint 2), ("name", Value.vstr "B")]) :=
  insert_find_roundtrip dbOne "users" [("_id", Value.vint 2), ("name", Value.vstr "B")]
    (Value.vint 2) (by decide) (fun fs h => Value.noConfusion h) (by decide)


/-- C4 counterexample.  A collection holding one record without `_id`
rejects a second record without `_id`: `dict.get("_id")` yields `None` on
both sides and `None == None`, so `insert_one` raises
`DuplicateKeyError(None)` and stores nothing — refuting the claim that
uniqueness is enforced on non-null ids only. -/
theorem null_id_duplicate_cex :
    (insert_one [("users", [[("name", Value.vstr "A")]])] "users"
      [("name", Value.vstr "B")]).1 = some (.duplicateKey .vnull) ∧
    contents (insert_one [("users", [[("name", Value.vstr "A")]])] "users"
      [("name", Value.vstr "B")]).2 "users" = [[("name", Value.vstr "A")]] := by
  refine ⟨by decide, by decide⟩

/-- C4 (amended): the insert-style operations (`insert_one`, `insert`, and
the fallback branch of `upsert_one`) raise `DuplicateKey` exactly when the
incoming record's `get("_id")` value — `None` when the field is missing —
equals the `get("_id")` value of some already-stored record of the
collection; in particular null identities do collide. -/
theorem duplicate_key_characterization (db : Store) (c : String) (r : Record)
    (batch : List Record) (query : Record) :
    ((insert_one db c r).1 = some (.duplicateKey (pyGet r "_id")) ↔
      ∃ doc ∈ contents db c, pyGet doc "_id" = pyGet r "_id") ∧
    ((insert_one db c r).1 = none ↔
      ∀ doc ∈ contents db c, pyGet doc "_id" ≠ pyGet r "_id") ∧
    ((insert db c batch).1 = none ↔
      ∀ d ∈ batch, ∀ doc ∈ contents db c, pyGet doc "_id" ≠ pyGet d "_id") ∧
    (upsertScan r query (contents db c) = .noMatch →
      ((upsert_one db c r query).1 = some (.duplicateKey (pyGet r "_id")) ↔
        ∃ doc ∈ contents db c, pyGet doc "_id" = pyGet r "_id")) := by
  have hiff := hasDupId_iff (contents db c) r
  have h1 : (insert_one db c r).1 =
      if hasDupId (contents db c) r then some (.duplicateKey (pyGet r "_id"))
      else none := by
    unfold insert_one
    simp only [contents_ensureColl]
    by_cases hdup : hasDupId (contents db c) r = true
    · simp [hdup]
    · simp [hdup]
  have key : (if hasDupId (contents db c) r
        then some (DbErr.duplicateKey (pyGet r "_id")) else none)
        = some (.duplicateKey (pyGet r "_id")) ↔
      ∃ doc ∈ contents db c, pyGet doc "_id" = pyGet r "_id" := by
    by_cases hdup : hasDupId (contents db c) r = true
    · rw [if_pos hdup]
      exact iff_of_true rfl (hiff.mp hdup)
    · rw [if_neg hdup]
      exact iff_of_false (by simp) (fun hex => hdup (hiff.mpr hex))
  refine ⟨?_, ?_, ?_, ?_⟩
  · rw [h1]
    exact key
  · rw [h1]
    by_cases hdup : hasDupId (contents db c) r = true
    · rw [if_pos hdup]
      refine iff_of_false (by simp) ?_
      intro hall
      obtain ⟨doc, hdoc, heq⟩ := hiff.mp hdup
      exact hall doc hdoc heq
    · rw [if_neg hdup]
      exact iff_of_true rfl
        (fun doc hdoc heq => hdup (hiff.mpr ⟨doc, hdoc, heq⟩))
  · cases hfind : batch.find? (fun document => hasDupId (contents db c) document) with
    | none =>
        have hall : ∀ d ∈ batch, ∀ doc ∈ contents db c,
            pyGet doc "_id" ≠ pyGet d "_id" := by
          intro d hd doc hdoc heq
          exact (List.find?_eq_none.mp hfind d hd)
            ((hasDupId_iff _ _).mpr ⟨doc, hdoc, heq⟩)
        exact iff_of_true (by rw [insert_no_collision db c batch hall]) hall
    | some d0 =>
        have hp := List.find?_some hfind
        have hmem := List.mem_of_find?_eq_some hfind
        obtain ⟨doc, hdoc, heq⟩ := (hasDupId_iff _ _).mp hp
        refine iff_of_false ?_ (fun hall => hall d0 hmem doc hdoc heq)
        rw [insert_collision db c batch d0 hfind]
        simp
  · intro hscan
    have h4 : (upsert_one db c r query).1 =
        if hasDupId (contents db c) r then some (.duplicateKey (pyGet r "_id"))
        else none := by
      unfold upsert_one
      simp only [contents_ensureColl, hscan]
      by_cases hdup : hasDupId (contents db c) r = true
      · simp [hdup]
      · simp [hdup]
    rw [h4]
    exact key

/-- C4 witness: the amended characterization applied to a concrete store and
record, with the `upsert_one` fallback hypothesis discharged on an empty
collection. -/
theorem duplicate_key_characterization_inst :
    ((insert_one dbOne "users" [("name", Value.vstr "B")]).1 =
        some (.duplicateKey (pyGet [("name", Value.vstr "B")] "_id")) ↔
      ∃ doc ∈ contents dbOne "users",
        pyGet doc "_id" = pyGet [("name", Value.vstr "B")] "_id") ∧
    ((upsert_one [] "users" [("name", Value.vstr "B")] [("x", Value.vint 7)]).1 =
        some (.duplicateKey (pyGet [("name", Value.vstr "B")] "_id")) ↔
      ∃ doc ∈ contents ([] : Store) "users",
        pyGet doc "_id" = pyGet [("name", Value.vstr "B")] "_id") :=
  ⟨(duplicate_key_characterization dbOne "users" [("name", Value.vstr "B")]
      [] []).1,
   (duplicate_key_characterization [] "users" [("name", Value.vstr "B")]
      [] [("x", Value.vint 7)]).2.2.2 rfl⟩

/-- C5: `upsert_one` replaces the first record matching the recursive
predicate in place (same position, collection length unchanged), and when
nothing matches and the record's `_id` is fresh it appends the record
(collection length grows by exactly 1). -/
theorem upsert_one_semantics (db : Store) (c : String) (document query : Record) :
    (∀ l1 d l2, contents db c = l1 ++ d :: l2 →
      (∀ x ∈ l1, matchesQuery (.vdict x) query = some false) →
      matchesQuery (.vdict d) query = some true →
      (upsert_one db c document query).1 = none ∧
      contents (upsert_one db c document query).2 c = l1 ++ document :: l2 ∧
      (contents (upsert_one db c document query).2 c).length =
        (contents db c).length) ∧
    ((∀ x ∈ contents db c, matchesQuery (.vdict x) query = some false) →
      (∀ doc ∈ contents db c, pyGet doc "_id" ≠ pyGet document "_id") →
      (upsert_one db c document query).1 = none ∧
      contents (upsert_one db c document query).2 c =
        contents db c ++ [document] ∧
      (contents (upsert_one db c document query).2 c).length =
        (contents db c).length + 1) := by
  constructor
  · intro l1 d l2 hsplit hskip hd
    have hscan : upsertScan document query (contents db c) =
        .replaced (l1 ++ document :: l2) := by
      rw [hsplit]
      exact upsertScan_replaced document query l1 d l2 hskip hd
    have hres : upsert_one db c document query =
        (none, setColl (ensureColl db c) c (l1 ++ document :: l2)) := by
      unfold upsert_one
      simp only [contents_ensureColl, hscan]
    rw [hres]
    refine ⟨rfl, contents_setColl_self _ _ _, ?_⟩
    rw [contents_setColl_self, hsplit]
    simp
  · intro hnone hfresh
    have hscan : upsertScan document query (contents db c) = .noMatch :=
      upsertScan_noMatch document query _ hnone
    have hdup : hasDupId (contents db c) document = false := by
      rw [Bool.eq_false_iff]
      intro hdup
      obtain ⟨doc, hdoc, heq⟩ := (hasDupId_iff _ _).mp hdup
      exact hfresh doc hdoc heq
    have hres : upsert_one db c document query =
        (none, setColl (ensureColl db c) c (contents db c ++ [document])) := by
      unfold upsert_one
      simp only [contents_ensureColl, hscan, hdup]
      simp
    rw [hres]
    refine ⟨rfl, contents_setColl_self _ _ _, ?_⟩
    rw [contents_setColl_self]
    simp

/-- C5 witness: both halves of `upsert_one_semantics` at concrete inputs —
an in-place replacement and a fresh append on `dbOne`. -/
theorem upsert_one_semantics_inst :
    ((upsert_one dbOne "users" [("_id", Value.vint 9)] [("_id", Value.vint 1)]).1
        = none ∧
      contents (upsert_one dbOne "users" [("_id", Value.vint 9)]
        [("_id", Value.vint 1)]).2 "users" = [] ++ [("_id", Value.vint 9)] :: [] ∧
      (contents (upsert_one dbOne "users" [("_id", Value.vint 9)]
        [("_id", Value.vint 1)]).2 "users").length =
        (contents dbOne "users").length) ∧
    ((upsert_one dbOne "users" [("_id", Value.vint 9)] [("_id", Value.vint 2)]).1
        = none ∧
      contents (upsert_one dbOne "users" [("_id", Value.vint 9)]
        [("_id", Value.vint 2)]).2 "users" =
        contents dbOne "users" ++ [[("_id", Value.vint 9)]] ∧
      (contents (upsert_one dbOne "users" [("_id", Value.vint 9)]
        [("_id", Value.vint 2)]).2 "users").length =
        (contents dbOne "users").length + 1) :=
  ⟨(upsert_one_semantics dbOne "users" [("_id", Value.vint 9)]
      [("_id", Value.vint 1)]).1 [] [("_id", Value.vint 1)] []
      (by decide) (by decide) (by decide),
   (upsert_one_semantics dbOne "users" [("_id", Value.vint 9)]
      [("_id", Value.vint 2)]).2 (by decide) (by decide)⟩

/-- C6: `update_many` merges the patch into exactly the records matching the
recursive predicate — a patched field takes the patch's value, every other
field keeps its previous value (`lookupField`-characterization of
`dictUpdate`), non-matching records are unchanged — and the call is a no-op
when the collection does not exist. -/
theorem update_many_merge_frame (db : Store) (c : String) (query patch : Record) :
    (∀ coll, getColl db c = some coll →
      (∀ doc ∈ coll, (matchesQuery (.vdict doc) query).isSome) →
      (update_many db c query patch).1 = none ∧
      contents (update_many db c query patch).2 c =
        coll.map (fun doc =>
          if matchesQuery (.vdict doc) query = some true then dictUpdate doc patch
          else doc)) ∧
    (∀ doc k, lookupField (dictUpdate doc patch) k =
      match lookupField patch k with
      | some v => some v
      | none => lookupField doc k) ∧
    (getColl db c = none → update_many db c query patch = (none, db)) := by
  refine ⟨?_, ?_, ?_⟩
  · intro coll hcoll hok
    have hloop := updateLoop_ok query patch coll hok
    have hres : update_many db c query patch =
        (none, setColl db c (coll.map (fun doc =>
          if matchesQuery (.vdict doc) query = some true then dictUpdate doc patch
          else doc))) := by
      unfold update_many
      simp only [hcoll, hloop]
    rw [hres]
    exact ⟨rfl, contents_setColl_self _ _ _⟩
  · intro doc k
    exact lookupField_dictUpdate doc patch k
  · intro h
    unfold update_many
    simp only [h]

/-- C6 witness: the spec's own example — patching `{name: "Alice"}` to
`{name: "Alicia"}` on the scenario store. -/
theorem update_many_merge_frame_inst :
    ((update_many usersDb "users" [("name", Value.vstr "Alice")]
        [("name", Value.vstr "Alicia")]).1 = none ∧
      contents (update_many usersDb "users" [("name", Value.vstr "Alice")]
        [("name", Value.vstr "Alicia")]).2 "users" =
        [aliceNYC].map (fun doc =>
          if matchesQuery (.vdict doc) [("name", Value.vstr "Alice")] = some true
          then dictUpdate doc [("name", Value.vstr "Alicia")] else doc)) ∧
    lookupField (dictUpdate aliceNYC [("name", Value.vstr "Alicia")]) "name" =
      match lookupField [("name", Value.vstr "Alicia")] "name" with
      | some v => some v
      | none => lookupField aliceNYC "name" :=
  ⟨(update_many_merge_frame usersDb "users" [("name", Value.vstr "Alice")]
      [("name", Value.vstr "Alicia")]).1 [aliceNYC] (by decide) (by decide),
   (update_many_merge_frame usersDb "users" [("name", Value.vstr "Alice")]
      [("name", Value.vstr "Alicia")]).2.1 aliceNYC "name"⟩

/-- C7: `count` uses the flat predicate — a record is counted exactly when
every top-level `(key, value)` pair of the query occurs verbatim among the
record's pairs (strict structural equality, no recursive descent) — it is
total, and returns 0 for a missing collection. -/
theorem count_flat_total (db : Store) (c : String) (query : Record) :
    count db c query = (contents db c).countP
      (fun doc => decide (∀ item ∈ query, item ∈ doc)) ∧
    (getColl db c = none → count db c query = 0) := by
  have hfun : ∀ doc : Record,
      flatMatches doc query = decide (∀ item ∈ query, item ∈ doc) := by
    intro doc
    cases hf : flatMatches doc query with
    | false =>
        have hnot : ¬ ∀ item ∈ query, item ∈ doc := by
          intro hall
          rw [(flatMatches_iff doc query).mpr hall] at hf
          cases hf
        exact (decide_eq_false hnot).symm
    | true =>
        exact (decide_eq_true ((flatMatches_iff doc query).mp hf)).symm
  constructor
  · unfold count
    cases h : getColl db c with
    | none => simp [contents, h]
    | some coll =>
        simp only [contents, h, Option.getD_some]
        simp only [hfun]
  · intro h
    unfold count
    simp only [h]

/-- C7 witness: the characterization applied on the scenario store and on a
missing collection. -/
theorem count_flat_total_inst :
    count usersDb "users" addrQuery =
      (contents usersDb "users").countP
        (fun doc => decide (∀ item ∈ addrQuery, item ∈ doc)) ∧
    count usersDb "missing" addrQuery = 0 :=
  ⟨(count_flat_total usersDb "users" addrQuery).1,
   (count_flat_total usersDb "missing" addrQuery).2 (by decide)⟩

/-- C8: collisions inside the batch itself are not checked — a batch whose
records all have ids fresh with respect to the stored contents is accepted
whole even when two of its records share an `_id`, leaving the collection
with (at least) two records carrying that id. -/
theorem insert_intra_batch_unchecked (db : Store) (c : String)
    (b1 b2 b3 : List Record) (d1 d2 : Record)
    (hid : pyGet d1 "_id" = pyGet d2 "_id")
    (hfresh : ∀ d ∈ b1 ++ d1 :: b2 ++ d2 :: b3, ∀ doc ∈ contents db c,
      pyGet doc "_id" ≠ pyGet d "_id") :
    (insert db c (b1 ++ d1 :: b2 ++ d2 :: b3)).1 = none ∧
    contents (insert db c (b1 ++ d1 :: b2 ++ d2 :: b3)).2 c =
      contents db c ++ (b1 ++ d1 :: b2 ++ d2 :: b3) ∧
    2 ≤ (contents (insert db c (b1 ++ d1 :: b2 ++ d2 :: b3)).2 c).countP
        (fun doc => pyGet doc "_id" == pyGet d1 "_id") := by
  have hres := insert_no_collision db c _ hfresh
  rw [hres]
  refine ⟨rfl, contents_setColl_self _ _ _, ?_⟩
  rw [contents_setColl_self]
  simp [List.countP_append, List.countP_cons, hid]
  omega

/-- C8 witness: inserting a batch of two records that share `_id = 2` into
`dbOne` (which stores only `_id = 1`) succeeds and stores both. -/
theorem insert_intra_batch_unchecked_inst :
    (insert dbOne "users" ([] ++ [("_id", Value.vint 2)] :: [] ++
      [("_id", Value.vint 2)] :: [])).1 = none ∧
    contents (insert dbOne "users" ([] ++ [("_id", Value.vint 2)] :: [] ++
      [("_id", Value.vint 2)] :: [])).2 "users" =
      contents dbOne "users" ++ ([] ++ [("_id", Value.vint 2)] :: [] ++
        [("_id", Value.vint 2)] :: []) ∧
    2 ≤ (contents (insert dbOne "users" ([] ++ [("_id", Value.vint 2)] :: [] ++
      [("_id", Value.vint 2)] :: [])).2 "users").countP
        (fun doc => pyGet doc "_id" == pyGet [("_id", Value.vint 2)] "_id") :=
  insert_intra_batch_unchecked dbOne "users" [] [] []
    [("_id", Value.vint 2)] [("_id", Value.vint 2)] (by decide) (by decide)

/-- C10: the recursive predicate is partial at the public interface — when a
query key carries a dict value but the record's value at that key is a
non-container scalar (an integer, say) and the inner query is non-empty,
`_matches_query` raises `TypeError`, so `find`, `find_one`, `upsert_one` and
`update_many` all fail on a store whose collection starts with such a record
instead of treating it as a non-match; and under the `compat` precondition
(every record value hit by a dict-valued query key is itself a dict,
recursively) the predicate is total. -/
theorem matches_query_partiality :
    (∀ (db : Store) (c k : String) (n : Int) (q : Record) (doc : Record)
        (rest : Collection) (document patch : Record),
      q ≠ [] → lookupField doc k = some (.vint n) →
      getColl db c = some (doc :: rest) →
      matchesQuery (.vdict doc) [(k, .vdict q)] = none ∧
      find_one db c [(k, .vdict q)] = (some .typeError, none) ∧
      find db c [(k, .vdict q)] none = (some .typeError, []) ∧
      (upsert_one db c document [(k, .vdict q)]).1 = some .typeError ∧
      (update_many db c [(k, .vdict q)] patch).1 = some .typeError) ∧
    (∀ (doc : Record) (query : Record), compat doc query = true →
      ∃ b, matchesQuery (.vdict doc) query = some b) := by
  constructor
  · intro db c k n q doc rest document patch hq hdv hdb
    have herr := matchesQuery_err_single doc k n q hq hdv
    have hcont : contents db c = doc :: rest := by
      simp [contents, hdb]
    refine ⟨herr, ?_, ?_, ?_, ?_⟩
    · simp [find_one, hdb, findFirst, herr]
    · simp [find, hdb, findLoop, herr]
    · unfold upsert_one
      simp [contents_ensureColl, hcont, upsertScan, herr]
    · unfold update_many
      simp [hdb, updateLoop, herr]
  · exact matchesQuery_total

/-- C10 witness: a concrete `TypeError` on a one-record store, and totality
on a compatible record/query pair also taken from the scenario. -/
theorem matches_query_partiality_inst :
    (matchesQuery (.vdict [("a", .vint 5)]) [("a", .vdict [("x", .vint 1)])] =
        none ∧
      find_one [("users", [[("a", Value.vint 5)]])] "users"
        [("a", .vdict [("x", .vint 1)])] = (some .typeError, none) ∧
      find [("users", [[("a", Value.vint 5)]])] "users"
        [("a", .vdict [("x", .vint 1)])] none = (some .typeError, []) ∧
      (upsert_one [("users", [[("a", Value.vint 5)]])] "users"
        [("y", Value.vint 0)] [("a", .vdict [("x", .vint 1)])]).1 =
        some .typeError ∧
      (update_many [("users", [[("a", Value.vint 5)]])] "users"
        [("a", .vdict [("x", .vint 1)])] [("y", Value.vint 0)]).1 =
        some .typeError) ∧
    (∃ b, matchesQuery (.vdict aliceNYC) addrQuery = some b) :=
  ⟨matches_query_partiality.1 [("users", [[("a", Value.vint 5)]])] "users"
      "a" 5 [("x", .vint 1)] [("a", Value.vint 5)] [] [("y", Value.vint 0)]
      [("y", Value.vint 0)] (by decide) (by decide) (by decide),
   matches_query_partiality.2 aliceNYC addrQuery (by decide)⟩
